import Mathlib

/-! RandomizedDTSP: best-of-N randomized-heading search

A shallow embedding of `src/dpp/planalg/RandomizedDTSP.cpp` (`randomHeading`,
`randomizeHeadings`, `RandomizedDTSP::run`) and theorems about it.

Conventions of the embedding.

* A finite `double` or `float` is the rational number it denotes; comparisons of
  finite values are comparisons of rationals.  The only floating-point operations
  the file performs itself are `fmod` (exact in IEEE 754) and the narrowing
  conversion `double -> float` (round to nearest, ties to even), both modelled
  exactly below.  NaN and infinities are not modelled.
* Nodes of a graph with `n` nodes are the indices `0 .. n-1` in iteration order,
  so `G.firstNode()` is node `0` of a non-empty graph.
* Reference parameters are fields of a state record that every function returns,
  also when it throws: what was written before a `throw` stays written.
* Functions of the repository that are not in this file (`dubinsTourCost`,
  `createDubinsTourEdges`, `buildDubinsAdjacencyMatrix`, the TSP file helpers),
  the C library (`std::remove`), the random generator and the `DPP_ASSERT`
  macro are fields of `World`.  They report through their return values and
  write only the parameter that is their result (`Tour` for `readTSPTourFile`,
  `Edges` for `createDubinsTourEdges`); a helper that throws is not modelled.
* `St.trace` is a ghost log of what has been executed, in order.
-/

namespace dpp

/-! ## Constants -/

/-- The `double` constant `M_PI` of `<cmath>`: 0x400921FB54442D18. -/
def M_PI : ℚ := 884279719003555 / 281474976710656

/-- Line 25: `#define TWO_PI ((double)2.0 * M_PI)`; doubling a double is exact. -/
def TWO_PI : ℚ := 2 * M_PI

/-- Line 27: `#define ALGORITHM_ITERATIONS 10`. -/
def ALGORITHM_ITERATIONS : Nat := 10

/-- Exit code of the helpers and of `run`; line 85: "An exit code (0==SUCCESS)". -/
def SUCCESS : Int := 0

/-! ## Floating point: `fmod` and the conversion to `float` -/

/-- Rounding toward zero. -/
def trunc (q : ℚ) : ℤ := if 0 ≤ q then ⌊q⌋ else ⌈q⌉

/-- C `fmod(a, b)` for `b ≠ 0`: `a - b * trunc (a / b)`, computed exactly. -/
def fmod (a b : ℚ) : ℚ := a - b * trunc (a / b)

/-- Rounding to the nearest integer, ties to the even one. -/
def roundHalfEven (q : ℚ) : ℤ :=
  if q - ⌊q⌋ < 1 / 2 then ⌊q⌋
  else if 1 / 2 < q - ⌊q⌋ then ⌊q⌋ + 1
  else if ⌊q⌋ % 2 = 0 then ⌊q⌋ else ⌊q⌋ + 1

/-- Spacing of the binary32 values in the binade of `q`: 24 significant bits, least
normal exponent `-126` (below it the spacing is that of the subnormals). -/
def binary32Ulp (q : ℚ) : ℚ := (2 : ℚ) ^ (max (Int.log 2 |q|) (-126) - 23)

/-- Conversion `double -> float` (line 47, `float x = ...`) in the default rounding
mode, for values below the binary32 overflow threshold. -/
def toFloat (q : ℚ) : ℚ := roundHalfEven (q / binary32Ulp q) * binary32Ulp q

/-- Values that a `double` can hold, among those of magnitude below `2^53`:
`m / 2^k` with `|m| < 2^53` and `k ≤ 1074`. -/
def IsDouble (q : ℚ) : Prop := ∃ m : ℤ, ∃ k : ℕ, |m| < 2 ^ 53 ∧ k ≤ 1074 ∧ q = m / 2 ^ k

/-! ## Data model -/

/-- An OGDF graph, as far as `run` looks at it: its identity (address) and sizes. -/
structure Graph where
  addr : Nat
  numberOfNodes : Nat
  numberOfEdges : Nat
deriving DecidableEq, Repr

/-- The nodes in `forall_nodes` order. -/
def Graph.nodes (G : Graph) : List Nat := List.range G.numberOfNodes

/-- The member `G.firstNode()`: the first node, none for an empty graph. -/
def Graph.firstNode (G : Graph) : Option Nat :=
  if G.numberOfNodes = 0 then none else some 0

/-- Node positions held by `GraphAttributes`. -/
structure GraphAttributes where
  x : List ℚ
  y : List ℚ
deriving DecidableEq, Repr

/-- An OGDF `NodeArray<double>`: the graph it is registered with (`graphOf()`, none
when default-constructed) and one value per node. -/
structure NodeArray where
  graphOf : Option Nat
  vals : List ℚ
deriving DecidableEq, Repr

/-- The assignment `A[i] = v`. -/
def NodeArray.assign (A : NodeArray) (i : Nat) (v : ℚ) : NodeArray :=
  { A with vals := A.vals.set i v }

/-- A tour edge between two nodes. -/
structure Edge where
  source : Nat
  target : Nat
deriving DecidableEq, Repr

/-- The exceptions of the file, and the failure of `DPP_ASSERT`. -/
inductive Err where
  /-- Line 92: `std::out_of_range("Expected x to be between 0 and 2*PI")`. -/
  | xOutOfRange
  /-- Line 96: `std::domain_error("Headings should be for G")`. -/
  | headingsNotForG
  /-- Line 100: `std::out_of_range("Expected G to have at least 2 nodes")`. -/
  | tooFewNodes
  /-- Line 132: `std::runtime_error("Failed creating TSP files.")`. -/
  | failedCreatingFiles
  /-- Line 189: `std::runtime_error("Failed to delete temporary files.")`. -/
  | failedDeletingFiles
  /-- Line 48: the condition of `DPP_ASSERT` is false and the macro checks it. -/
  | assertionFailed
deriving DecidableEq, Repr

/-- The message of each exception; for the assertion, the asserted condition. -/
def Err.what : Err → String
  | .xOutOfRange => "Expected x to be between 0 and 2*PI"
  | .headingsNotForG => "Headings should be for G"
  | .tooFewNodes => "Expected G to have at least 2 nodes"
  | .failedCreatingFiles => "Failed creating TSP files."
  | .failedDeletingFiles => "Failed to delete temporary files."
  | .assertionFailed => "0.0 <= x && x < TWO_PI"

/-- The three invalid-argument exceptions of lines 91-101. -/
def Err.isInvalidArgument : Err → Bool
  | .xOutOfRange => true
  | .headingsNotForG => true
  | .tooFewNodes => true
  | _ => false

/-- The retained best configuration: lines 120-122, `BestTour`, `BestHeadings`,
`bestCost`. -/
structure Best where
  BestTour : List Nat
  BestHeadings : NodeArray
  bestCost : ℚ
deriving DecidableEq, Repr

/-- What one completed trial did: its index, the tour read back, the headings it
used, the cost it was scored with, and the best retained at the end of its body. -/
structure TrialRecord where
  i : Nat
  Tour : List Nat
  Headings : NodeArray
  cost_i : ℚ
  best : Best
deriving DecidableEq, Repr

/-- Entries of the ghost log. -/
inductive Event where
  /-- A call of `randomHeading` computed the value `v` on line 47. -/
  | sampled (v : ℚ)
  /-- Trial `i` called `buildDubinsAdjacencyMatrix` (line 127). -/
  | matrixBuilt (i : Nat)
  /-- Trial `i` called `runLKHSolver` (line 141). -/
  | solverRun (i : Nat)
  /-- Trial `i` called `readTSPTourFile` (line 153), which returned `status`. -/
  | tourRead (i : Nat) (status : Int)
  /-- Trial `i` was scored on line 157 and reached the end of its body. -/
  | trial (rec : TrialRecord)
  /-- Line 175 was reached: `createDubinsTourEdges` was called. -/
  | edgesCreated
deriving DecidableEq, Repr

/-- The temporary files of lines 115-117. -/
inductive TempFile where
  | tspFilename
  | parFilename
  | tourFilename
deriving DecidableEq, Repr

/-- Everything `run` calls that is outside the file. -/
structure World where
  /-- The `k`-th value `uniform_dist(e1)` yields from now on (line 47). -/
  uniform_dist : Nat → ℚ
  /-- Whether the `DPP_ASSERT` macro checks its condition. -/
  assertsChecked : Bool
  /-- Line 127; the matrix is returned rather than written into `A`. -/
  buildDubinsAdjacencyMatrix : Graph → GraphAttributes → NodeArray → ℚ → List (List ℚ)
  /-- Line 130, exit code of `writePARFile` in trial `i`. -/
  writePARFile : Nat → Int
  /-- Line 131, exit code of `writeATSPFile` for the matrix of trial `i`. -/
  writeATSPFile : Nat → List (List ℚ) → Int
  /-- Lines 141-153: what `readTSPTourFile` returns and leaves in `Tour` after the
  solver ran on the matrix of trial `i`, given the `Tour` it was handed. -/
  readTSPTourFile : Nat → List (List ℚ) → List Nat → Int × List Nat
  /-- Line 157: `dubinsTourCost(G, GA, Tour, Headings, r, flag)`. -/
  dubinsTourCost : Graph → GraphAttributes → List Nat → NodeArray → ℚ → Bool → ℚ
  /-- Line 175: `createDubinsTourEdges(G, GA, Tour, Headings, r, Edges, flag)`; the
  returned cost and the `Edges` it leaves. -/
  createDubinsTourEdges :
    Graph → GraphAttributes → List Nat → NodeArray → ℚ → List Edge → Bool → ℚ × List Edge
  /-- Lines 186-188: what `std::remove` returns for each temporary file. -/
  remove : TempFile → Int

/-- The caller-owned output parameters of `run` (lines 88-89). -/
structure Outputs where
  Headings : NodeArray
  Tour : List Nat
  Edges : List Edge
  cost : ℚ
deriving DecidableEq, Repr

/-- The state `run` works on: the caller-owned output parameters, how many values
the static generator has yielded, and the ghost log. -/
structure St extends Outputs where
  drawn : Nat
  trace : List Event
deriving DecidableEq, Repr

/-- The state on entry to `run`. -/
def St.enter (c : Outputs) : St := { c with drawn := 0, trace := [] }

/-- Appends an entry to the ghost log. -/
def St.log (s : St) (e : Event) : St := { s with trace := s.trace ++ [e] }

/-! ## The functions of the file -/

/-- Line 47: `float x = fmod(uniform_dist(e1), TWO_PI)` for the drawn value `u`. -/
def headingOfDraw (u : ℚ) : ℚ := toFloat (fmod u TWO_PI)

/-- Lines 40-51, `randomHeading`. -/
def randomHeading (w : World) (s : St) : Except Err ℚ × St :=
  let x : ℚ := headingOfDraw (w.uniform_dist s.drawn)
  let s1 : St := ({ s with drawn := s.drawn + 1 } : St).log (Event.sampled x)
  if w.assertsChecked = true ∧ ¬ (0 ≤ x ∧ x < TWO_PI) then (.error .assertionFailed, s1)
  else (.ok x, s1)

/-- The loop of lines 65-71 over the nodes still to visit. -/
def randomizeNodes (w : World) (G : Graph) (skipOrigin : Bool) :
    List Nat → St → Except Err Unit × St
  | [], s => (.ok (), s)
  | i :: rest, s =>
    if skipOrigin = true ∧ some i = G.firstNode then randomizeNodes w G skipOrigin rest s
    else
      match randomHeading w s with
      | (.error e, s1) => (.error e, s1)
      | (.ok x, s1) =>
        randomizeNodes w G skipOrigin rest { s1 with Headings := s1.Headings.assign i x }

/-- Lines 60-72, `randomizeHeadings`. -/
def randomizeHeadings (w : World) (G : Graph) (s : St) (skipOrigin : Bool) :
    Except Err Unit × St :=
  randomizeNodes w G skipOrigin G.nodes s

/-- Lines 124-165: the body of the loop for trial `i`. -/
def trialBody (w : World) (G : Graph) (GA : GraphAttributes) (r : ℚ) (i : Nat)
    (b : Best) (s : St) : Except Err Best × St :=
  -- line 125 (skipOrigin takes its default, true)
  match randomizeHeadings w G s true with
  | (.error e, s1) => (.error e, s1)
  | (.ok _, s1) =>
    -- lines 126-127
    let A := w.buildDubinsAdjacencyMatrix G GA s1.Headings r
    let s2 := s1.log (Event.matrixBuilt i)
    -- lines 130-133
    if w.writePARFile i ≠ SUCCESS ∨ w.writeATSPFile i A ≠ SUCCESS then
      (.error .failedCreatingFiles, s2)
    else
      -- line 141
      let s3 := s2.log (Event.solverRun i)
      -- lines 153-155: the exception object of line 154 is constructed and dropped,
      -- there is no `throw`; both outcomes of the test continue on line 157
      let rd := w.readTSPTourFile i A s3.Tour
      let s4 := ({ s3 with Tour := rd.2 } : St).log (Event.tourRead i rd.1)
      -- line 157
      let cost_i := w.dubinsTourCost G GA s4.Tour s4.Headings r true
      -- lines 160-164
      let b1 : Best :=
        if cost_i < b.bestCost ∨ b.bestCost < 0 then
          { BestTour := s4.Tour, BestHeadings := s4.Headings, bestCost := cost_i }
        else b
      let s5 := s4.log (Event.trial
        { i := i, Tour := s4.Tour, Headings := s4.Headings, cost_i := cost_i, best := b1 })
      -- line 165
      (.ok b1, { s5 with Tour := [] })

/-- Line 123: `for (int i = ...; i < ALGORITHM_ITERATIONS; i++)` with `todo`
iterations left, the next one being trial `i`. -/
def trials (w : World) (G : Graph) (GA : GraphAttributes) (r : ℚ) :
    Nat → Nat → Best → St → Except Err Best × St
  | 0, _, b, s => (.ok b, s)
  | todo + 1, i, b, s =>
    match trialBody w G GA r i b s with
    | (.error e, s1) => (.error e, s1)
    | (.ok b1, s1) => trials w G GA r todo (i + 1) b1 s1

/-- Lines 120-122: the retained best before the first trial. -/
def Best.init : Best :=
  { BestTour := [], BestHeadings := { graphOf := none, vals := [] }, bestCost := -1 }

/-- Lines 169-192: what `run` does once the loop has finished with `b`. -/
def finish (w : World) (G : Graph) (GA : GraphAttributes) (r : ℚ) (b : Best) (s : St) :
    Except Err Int × St :=
  -- lines 170-172
  let s1 : St := { s with cost := b.bestCost, Headings := b.BestHeadings, Tour := b.BestTour }
  -- line 175: the last argument is the literal `true`
  let ce := w.createDubinsTourEdges G GA s1.Tour s1.Headings r s1.Edges true
  let s2 : St := ({ s1 with cost := ce.1, Edges := ce.2 } : St).log Event.edgesCreated
  -- lines 186-190
  if w.remove .tspFilename ≠ 0 ∧ w.remove .parFilename ≠ 0 ∧ w.remove .tourFilename ≠ 0 then
    (.error .failedDeletingFiles, s2)
  else (.ok SUCCESS, s2)

/-- Lines 87-193, `RandomizedDTSP::run`; `c` holds the caller's `Tour`, `Edges`,
`Headings` and `cost`, and the outputs of the result are what the caller finds in
them afterwards, whether `run` returned or threw. -/
def RandomizedDTSP.run (w : World) (G : Graph) (GA : GraphAttributes) (x r : ℚ)
    (c : Outputs) (returnToInitial : Bool) : Except Err Int × St :=
  -- lines 91-101
  if x < 0 ∨ x ≥ M_PI * 2 then (.error .xOutOfRange, St.enter c)
  else if c.Headings.graphOf ≠ some G.addr then (.error .headingsNotForG, St.enter c)
  else if G.numberOfNodes < 2 then (.error .tooFewNodes, St.enter c)
  else
    -- line 110; `G.firstNode()` is node 0, the graph having at least 2 nodes
    let s0 : St := St.enter { c with Headings := c.Headings.assign 0 x }
    -- lines 120-167
    match trials w G GA r ALGORITHM_ITERATIONS 0 Best.init s0 with
    | (.error e, s1) => (.error e, s1)
    | (.ok b, s1) => finish w G GA r b s1

/-- The trial records of a log, in order. -/
def trialRecords (tr : List Event) : List TrialRecord :=
  tr.filterMap fun e => match e with
    | .trial rec => some rec
    | _ => none

/-! ## The evaluators of the specification, used in the concrete scenarios -/

/-- Modelled from the spec: the body of `dubinsTourCost` is not in the file.  Section
4.4: the cost "is the sum of `dubinsLength` over each consecutive pair in Ordering, in
order, using each waypoint's current heading; if `closeLoop` is true, an additional
edge from the last waypoint back to the origin (using the origin's fixed heading) is
added".  `dubinsLength u hu v hv` is the length from node `u` with heading `hu` to node
`v` with heading `hv`. -/
def specTourCost (dubinsLength : Nat → ℚ → Nat → ℚ → ℚ) (Tour : List Nat)
    (Headings : NodeArray) (closeLoop : Bool) : ℚ :=
  let h : Nat → ℚ := fun u => Headings.vals.getD u 0
  let legs := ((Tour.zip Tour.tail).map fun p => dubinsLength p.1 (h p.1) p.2 (h p.2)).sum
  match closeLoop, Tour.getLast? with
  | true, some u => legs + dubinsLength u (h u) 0 (h 0)
  | _, _ => legs

/-- Modelled from the spec: the body of `createDubinsTourEdges` is not in the file.
Sections 3 and 4.4: one edge per consecutive pair of the ordering, and the closing edge
when `closeLoop` is true; the cost is that of `specTourCost`. -/
def specTourEdges (dubinsLength : Nat → ℚ → Nat → ℚ → ℚ) (Tour : List Nat)
    (Headings : NodeArray) (closeLoop : Bool) : ℚ × List Edge :=
  let legs := (Tour.zip Tour.tail).map fun p => ({ source := p.1, target := p.2 } : Edge)
  (specTourCost dubinsLength Tour Headings closeLoop,
    match closeLoop, Tour.getLast? with
    | true, some u => legs ++ [{ source := u, target := 0 }]
    | _, _ => legs)

/-! ## Notions used to state the theorems -/

/-- The record `rec` is what trial `i` logs when `b` is retained before it: the score
is `dubinsTourCost` with the flag `true`, and lines 160-164 decide what is retained. -/
def RecordOf (w : World) (G : Graph) (GA : GraphAttributes) (r : ℚ) (i : Nat) (b : Best)
    (rec : TrialRecord) : Prop :=
  rec.i = i ∧
  rec.cost_i = w.dubinsTourCost G GA rec.Tour rec.Headings r true ∧
  rec.best =
    if rec.cost_i < b.bestCost ∨ b.bestCost < 0 then
      { BestTour := rec.Tour, BestHeadings := rec.Headings, bestCost := rec.cost_i }
    else b

/-- Consecutive trial records, the first one of trial `i` with `b` retained before. -/
def Chain (w : World) (G : Graph) (GA : GraphAttributes) (r : ℚ) :
    Nat → Best → List TrialRecord → Prop
  | _, _, [] => True
  | i, b, rec :: rest => RecordOf w G GA r i b rec ∧ Chain w G GA r (i + 1) rec.best rest

/-- The best retained after the records, `b` being retained before them. -/
def lastBest (b : Best) : List TrialRecord → Best
  | [] => b
  | rec :: rest => lastBest rec.best rest

/-- The record trial `i` logs when it starts scoring in state `s0` with `b` retained. -/
def trialRecord (w : World) (G : Graph) (GA : GraphAttributes) (r : ℚ) (i : Nat) (b : Best)
    (s0 : St) : TrialRecord :=
  let T := (w.readTSPTourFile i (w.buildDubinsAdjacencyMatrix G GA s0.Headings r) s0.Tour).2
  let c := w.dubinsTourCost G GA T s0.Headings r true
  { i := i, Tour := T, Headings := s0.Headings, cost_i := c,
    best := if c < b.bestCost ∨ b.bestCost < 0 then
        { BestTour := T, BestHeadings := s0.Headings, bestCost := c }
      else b }

/-- The retained best after the records `pre`: nothing yet, or the earliest record of
least cost. -/
def EarliestMin (pre : List TrialRecord) (b : Best) : Prop :=
  (pre = [] ∧ b.bestCost < 0) ∨
  ∃ (j : Nat) (m : TrialRecord), pre[j]? = some m ∧
    b = { BestTour := m.Tour, BestHeadings := m.Headings, bestCost := m.cost_i } ∧
    0 ≤ m.cost_i ∧
    (∀ rec ∈ pre, m.cost_i ≤ rec.cost_i) ∧
    (∀ (k : Nat) (rec : TrialRecord), k < j → pre[k]? = some rec → m.cost_i < rec.cost_i)

/-! ## A concrete scenario

Scenario A of the specification: two waypoints at (0,0) and (10,0), turning radius 1,
origin heading 0.  The generator always yields 0, so every heading is 0. -/

/-- The graph of scenario A. -/
def scenarioG : Graph := { addr := 1, numberOfNodes := 2, numberOfEdges := 0 }

/-- The positions of scenario A. -/
def scenarioGA : GraphAttributes := { x := [0, 10], y := [0, 0] }

/-- Dubins lengths of scenario A with all headings 0 and radius 1: the straight
segment of length 10 from node 0 to node 1, and two half turns and a segment back. -/
def scenarioLength (u : Nat) (_hu : ℚ) (v : Nat) (_hv : ℚ) : ℚ :=
  if u = v then 0 else if u < v then 10 else 10 + TWO_PI

/-- The world of scenario A: every helper succeeds and the solver returns the tour
`0, 1`; the cost helpers are those of the specification. -/
def scenarioWorld : World :=
  { uniform_dist := fun _ => 0
    assertsChecked := true
    buildDubinsAdjacencyMatrix := fun _ _ _ _ => [[0, 10], [10 + TWO_PI, 0]]
    writePARFile := fun _ => 0
    writeATSPFile := fun _ _ => 0
    readTSPTourFile := fun _ _ _ => (0, [0, 1])
    dubinsTourCost := fun _ _ T H _ f => specTourCost scenarioLength T H f
    createDubinsTourEdges := fun _ _ T H _ _ f => specTourEdges scenarioLength T H f
    remove := fun _ => 0 }

/-- The outputs the caller passes in scenario A. -/
def scenarioOutputs : Outputs :=
  { Headings := { graphOf := some 1, vals := [5, 5] }, Tour := [], Edges := [], cost := 0 }

/-- Scenario A where the tour file of trial 0 cannot be read: `readTSPTourFile`
returns 1 and leaves `Tour` as it was. -/
def unreadableWorld : World :=
  { scenarioWorld with
    readTSPTourFile := fun i _ T => if i = 0 then (1, T) else (0, [0, 1]) }

/-- Scenario A where `writePARFile` fails. -/
def unwritableWorld : World := { scenarioWorld with writePARFile := fun _ => 1 }

/-- Scenario A where none of the temporary files can be deleted. -/
def undeletableWorld : World := { scenarioWorld with remove := fun _ => -1 }

/-- The largest `double` below `TWO_PI`, 0x401921FB54442D17. -/
def lastBelowTwoPi : ℚ := 7074237752028439 / 2 ^ 50

/-- A world whose generator yields `lastBelowTwoPi`. -/
def edgeDrawWorld (checked : Bool) : World :=
  { scenarioWorld with uniform_dist := fun _ => lastBelowTwoPi, assertsChecked := checked }

deriving instance DecidableEq for Except

/-! ## Input validation -/

theorem M_PI_lt_pi : ((M_PI : ℚ) : ℝ) < Real.pi := by
  have h := Real.pi_gt_d20
  unfold M_PI
  push_cast
  norm_num at h ⊢
  linarith

/-- C1: when the origin heading is outside `[0, 2*pi)` (below 0, or at least the constant
`M_PI*2.0` that line 91 compares with, or at least twice the real number pi), or
`Headings` is not registered with `G`, or `G` has fewer than 2 nodes, `run` throws one of
its invalid-argument exceptions before any trial: nothing is logged (no heading sampled,
no matrix built, no solver run), no random value is consumed, and `Headings`, `Tour`,
`Edges` and `cost` are as the caller passed them. -/
theorem run_rejects_invalid_input (w : World) (G : Graph) (GA : GraphAttributes)
    (x r : ℚ) (c : Outputs) (returnToInitial : Bool)
    (h : x < 0 ∨ x ≥ M_PI * 2 ∨ 2 * Real.pi ≤ ((x : ℚ) : ℝ) ∨
      c.Headings.graphOf ≠ some G.addr ∨ G.numberOfNodes < 2) :
    ∃ e : Err, (RandomizedDTSP.run w G GA x r c returnToInitial).1 = .error e ∧
      e.isInvalidArgument = true ∧
      (RandomizedDTSP.run w G GA x r c returnToInitial).2.trace = [] ∧
      (RandomizedDTSP.run w G GA x r c returnToInitial).2.drawn = 0 ∧
      (RandomizedDTSP.run w G GA x r c returnToInitial).2.toOutputs = c := by
  unfold RandomizedDTSP.run
  by_cases h1 : x < 0 ∨ x ≥ M_PI * 2
  · exact ⟨.xOutOfRange, by simp [h1, St.enter, Err.isInvalidArgument]⟩
  · by_cases h2 : c.Headings.graphOf ≠ some G.addr
    · exact ⟨.headingsNotForG, by simp [h1, h2, St.enter, Err.isInvalidArgument]⟩
    · have h3 : G.numberOfNodes < 2 := by
        rcases h with h | h | h | h | h
        · exact absurd (Or.inl h) h1
        · exact absurd (Or.inr h) h1
        · exfalso
          apply h1
          right
          have hpi := M_PI_lt_pi
          have hx : ((M_PI * 2 : ℚ) : ℝ) ≤ ((x : ℚ) : ℝ) := by
            push_cast
            linarith
          exact_mod_cast hx
        · exact absurd h h2
        · exact h
      exact ⟨.tooFewNodes, by simp [h1, h2, h3, St.enter, Err.isInvalidArgument]⟩

/-- Witness of C1: the origin heading 7 is rejected in scenario A. -/
theorem run_rejects_invalid_input_witness :
    ∃ e : Err, (RandomizedDTSP.run scenarioWorld scenarioG scenarioGA 7 1
        scenarioOutputs false).1 = .error e ∧
      e.isInvalidArgument = true ∧
      (RandomizedDTSP.run scenarioWorld scenarioG scenarioGA 7 1
        scenarioOutputs false).2.trace = [] ∧
      (RandomizedDTSP.run scenarioWorld scenarioG scenarioGA 7 1
        scenarioOutputs false).2.drawn = 0 ∧
      (RandomizedDTSP.run scenarioWorld scenarioG scenarioGA 7 1
        scenarioOutputs false).2.toOutputs = scenarioOutputs :=
  run_rejects_invalid_input scenarioWorld scenarioG scenarioGA 7 1 scenarioOutputs false
    (Or.inr (Or.inl (by decide!)))

/-! ## Effect of the sampler -/

theorem randomHeading_state (w : World) (s : St) :
    (randomHeading w s).2 = ({ s with drawn := s.drawn + 1 } : St).log
      (Event.sampled (headingOfDraw (w.uniform_dist s.drawn))) := by
  unfold randomHeading
  simp only []
  split <;> rfl

theorem randomHeading_value (w : World) (s : St) (v : ℚ)
    (h : (randomHeading w s).1 = .ok v) : v = headingOfDraw (w.uniform_dist s.drawn) := by
  unfold randomHeading at h
  simp only [] at h
  split at h
  · cases h
  · injection h with h
    exact h.symm

theorem randomHeading_error (w : World) (s : St) (e : Err)
    (h : (randomHeading w s).1 = .error e) : e = .assertionFailed := by
  unfold randomHeading at h
  simp only [] at h
  split at h
  · injection h with h
    exact h.symm
  · cases h

theorem firstNode_eq (G : Graph) (i : Nat) :
    some i = G.firstNode ↔ i = 0 ∧ G.numberOfNodes ≠ 0 := by
  unfold Graph.firstNode
  split
  · simp [*]
  · simp [*, eq_comm]

/-- What `randomizeNodes` leaves alone, and what it logs. -/
theorem randomizeNodes_frame (w : World) (G : Graph) (skip : Bool) :
    ∀ (l : List Nat) (s : St),
      (randomizeNodes w G skip l s).2.Tour = s.Tour ∧
      (randomizeNodes w G skip l s).2.Edges = s.Edges ∧
      (randomizeNodes w G skip l s).2.cost = s.cost ∧
      (randomizeNodes w G skip l s).2.Headings.graphOf = s.Headings.graphOf ∧
      (randomizeNodes w G skip l s).2.Headings.vals.length = s.Headings.vals.length ∧
      (∀ e, (randomizeNodes w G skip l s).1 = .error e → e = .assertionFailed) ∧
      ∃ evs, (randomizeNodes w G skip l s).2.trace = s.trace ++ evs ∧
        ∀ e ∈ evs, ∃ v, e = Event.sampled v := by
  intro l
  induction l with
  | nil =>
    intro s
    exact ⟨rfl, rfl, rfl, rfl, rfl, by simp [randomizeNodes], [], by simp [randomizeNodes],
      by simp⟩
  | cons i rest ih =>
    intro s
    unfold randomizeNodes
    by_cases hs : skip = true ∧ some i = G.firstNode
    · rw [if_pos hs]; exact ih s
    · rw [if_neg hs]
      have hst := randomHeading_state w s
      have her := randomHeading_error w s
      cases hrh : randomHeading w s with
      | mk res s1 =>
        rw [hrh] at hst her
        simp only at hst her
        cases res with
        | error e =>
          simp only []
          subst hst
          refine ⟨rfl, rfl, rfl, rfl, rfl, ?_, [_], rfl, by simp⟩
          intro e1 he1
          injection he1 with he1
          subst he1
          exact her e rfl
        | ok v =>
          simp only []
          obtain ⟨h1, h2, h3, h4, h5, h8, evs, h6, h7⟩ :=
            ih { s1 with Headings := s1.Headings.assign i v }
          subst hst
          refine ⟨h1, h2, h3, h4, ?_, h8,
            Event.sampled (headingOfDraw (w.uniform_dist s.drawn)) :: evs, ?_, ?_⟩
          · rw [h5]; simp [NodeArray.assign, St.log]
          · rw [h6]; simp [St.log]
          · intro e he
            rcases List.mem_cons.1 he with rfl | he
            · exact ⟨_, rfl⟩
            · exact h7 e he


/-- With `skipOrigin`, `randomizeNodes` does not touch the first node. -/
theorem randomizeNodes_origin (w : World) (G : Graph) :
    ∀ (l : List Nat) (s : St), (0 ∈ l → G.numberOfNodes ≠ 0) →
      (randomizeNodes w G true l s).2.Headings.vals[0]? = s.Headings.vals[0]? := by
  intro l
  induction l with
  | nil => intro s _; rfl
  | cons i rest ih =>
    intro s h0
    have h0r : 0 ∈ rest → G.numberOfNodes ≠ 0 := fun h => h0 (List.mem_cons_of_mem _ h)
    unfold randomizeNodes
    by_cases hs : true = true ∧ some i = G.firstNode
    · rw [if_pos hs]; exact ih s h0r
    · rw [if_neg hs]
      have hi : i ≠ 0 := by
        intro hi
        subst hi
        exact hs ⟨rfl, (firstNode_eq G 0).2 ⟨rfl, h0 (List.mem_cons_self _ _)⟩⟩
      have hst := randomHeading_state w s
      cases hrh : randomHeading w s with
      | mk res s1 =>
        rw [hrh] at hst
        simp only at hst
        subst hst
        cases res with
        | error e => rfl
        | ok v =>
          simp only []
          rw [ih _ h0r]
          simp [NodeArray.assign, St.log, List.getElem?_set_ne hi]

/-- The nodes `a, a+1, ..., a+k-1` past the first one each get their own draw. -/
theorem randomizeNodes_fresh (w : World) (G : Graph) :
    ∀ (k a : Nat) (s s1 : St), 1 ≤ a →
      randomizeNodes w G true (List.range' a k) s = (.ok (), s1) →
      s1.drawn = s.drawn + k ∧
      (∀ j, j < a → s1.Headings.vals[j]? = s.Headings.vals[j]?) ∧
      (∀ j, a ≤ j → j < a + k → j < s.Headings.vals.length →
        s1.Headings.vals[j]? = some (headingOfDraw (w.uniform_dist (s.drawn + (j - a))))) := by
  intro k
  induction k with
  | zero =>
    intro a s s1 _ h
    simp only [List.range', randomizeNodes, Prod.mk.injEq, true_and] at h
    subst h
    exact ⟨rfl, fun _ _ => rfl, fun j h1 h2 _ => absurd h2 (by omega)⟩
  | succ k ih =>
    intro a s s1 ha h
    rw [List.range'] at h
    unfold randomizeNodes at h
    have hs : ¬ (true = true ∧ some a = G.firstNode) := by
      rw [firstNode_eq]
      intro hh
      omega
    rw [if_neg hs] at h
    have hst := randomHeading_state w s
    cases hrh : randomHeading w s with
    | mk res s2 =>
      have hv := randomHeading_value w s
      rw [hrh] at hst h hv
      simp only at hst hv
      subst hst
      cases res with
      | error e => simp at h
      | ok v =>
        simp only [] at h
        have hv := hv v rfl
        obtain ⟨h1, h2, h3⟩ := ih (a + 1) _ s1 (by omega) h
        refine ⟨?_, ?_, ?_⟩
        · rw [h1]; simp [St.log]; omega
        · intro j hj
          rw [h2 j (by omega)]
          simp [NodeArray.assign, St.log, List.getElem?_set_ne (show a ≠ j by omega)]
        · intro j hja hjk hjl
          by_cases hj : j = a
          · subst hj
            rw [h2 j (by omega)]
            simp [NodeArray.assign, St.log, hjl, hv]
          · rw [h3 j (by omega) (by omega) (by simpa [NodeArray.assign, St.log] using hjl)]
            simp only [St.log]
            congr 3
            omega


theorem trialRecords_samples (evs : List Event) (h : ∀ e ∈ evs, ∃ v, e = Event.sampled v) :
    trialRecords evs = [] ∧ Event.edgesCreated ∉ evs := by
  constructor
  · unfold trialRecords
    rw [List.filterMap_eq_nil_iff]
    intro e he
    obtain ⟨v, rfl⟩ := h e he
    rfl
  · intro he
    obtain ⟨v, hv⟩ := h _ he
    cases hv

theorem trialRecords_append (a b : List Event) :
    trialRecords (a ++ b) = trialRecords a ++ trialRecords b := by
  simp [trialRecords]

theorem trialBody_ok (w : World) (G : Graph) (GA : GraphAttributes) (r : ℚ) (i : Nat)
    (b : Best) (s s0 : St) (u : Unit) (h0 : randomizeHeadings w G s true = (.ok u, s0))
    (hw : ¬ (w.writePARFile i ≠ SUCCESS ∨
      w.writeATSPFile i (w.buildDubinsAdjacencyMatrix G GA s0.Headings r) ≠ SUCCESS)) :
    trialBody w G GA r i b s = (.ok (trialRecord w G GA r i b s0).best,
      { s0 with
        Tour := []
        trace := s0.trace ++ [Event.matrixBuilt i, Event.solverRun i,
          Event.tourRead i (w.readTSPTourFile i
            (w.buildDubinsAdjacencyMatrix G GA s0.Headings r) s0.Tour).1,
          Event.trial (trialRecord w G GA r i b s0)] }) := by
  unfold trialBody
  rw [h0]
  simp only []
  rw [if_neg (by simpa [St.log] using hw)]
  simp [St.log, trialRecord]

theorem trialBody_unwritable (w : World) (G : Graph) (GA : GraphAttributes) (r : ℚ) (i : Nat)
    (b : Best) (s s0 : St) (u : Unit) (h0 : randomizeHeadings w G s true = (.ok u, s0))
    (hw : w.writePARFile i ≠ SUCCESS ∨
      w.writeATSPFile i (w.buildDubinsAdjacencyMatrix G GA s0.Headings r) ≠ SUCCESS) :
    trialBody w G GA r i b s = (.error .failedCreatingFiles, s0.log (Event.matrixBuilt i)) := by
  unfold trialBody
  rw [h0]
  simp only []
  rw [if_pos (by simpa [St.log] using hw)]

theorem trialBody_aborted (w : World) (G : Graph) (GA : GraphAttributes) (r : ℚ) (i : Nat)
    (b : Best) (s s0 : St) (e : Err) (h0 : randomizeHeadings w G s true = (.error e, s0)) :
    trialBody w G GA r i b s = (.error e, s0) := by
  unfold trialBody
  rw [h0]

theorem trialRecord_of (w : World) (G : Graph) (GA : GraphAttributes) (r : ℚ) (i : Nat)
    (b : Best) (s0 : St) : RecordOf w G GA r i b (trialRecord w G GA r i b s0) :=
  ⟨rfl, rfl, rfl⟩

/-- What one trial does to the state and to the log. -/
theorem trialBody_spec (w : World) (G : Graph) (GA : GraphAttributes) (r : ℚ) (i : Nat)
    (b : Best) (s : St) (res : Except Err Best) (s1 : St)
    (h : trialBody w G GA r i b s = (res, s1)) :
    s1.Edges = s.Edges ∧ s1.cost = s.cost ∧
    s1.Headings.vals[0]? = s.Headings.vals[0]? ∧
    ∃ evs, s1.trace = s.trace ++ evs ∧ Event.edgesCreated ∉ evs ∧
      (∀ b1, res = .ok b1 → ∃ rec, trialRecords evs = [rec] ∧ RecordOf w G GA r i b rec ∧
        rec.best = b1 ∧ rec.Headings = s1.Headings) ∧
      (∀ e, res = .error e → trialRecords evs = [] ∧
        (e = .failedCreatingFiles ∨ e = .assertionFailed)) := by
  obtain ⟨f1, f2, f3, f4, f5, f9, evs, f6, f7⟩ := randomizeNodes_frame w G true G.nodes s
  have f8 := randomizeNodes_origin w G G.nodes s (by
    intro h0
    have := List.mem_range.1 h0
    omega)
  obtain ⟨g1, g2⟩ := trialRecords_samples evs f7
  cases hrh : randomizeHeadings w G s true with
  | mk res0 s0 =>
    have hrn : randomizeNodes w G true G.nodes s = (res0, s0) := hrh
    rw [hrn] at f1 f2 f3 f4 f5 f6 f8 f9
    simp only at f1 f2 f3 f4 f5 f6 f8 f9
    cases res0 with
    | error e =>
      rw [trialBody_aborted w G GA r i b s s0 e hrh] at h
      simp only [Prod.mk.injEq] at h
      obtain ⟨rfl, rfl⟩ := h
      refine ⟨f2, f3, f8, evs, f6, g2, ?_, ?_⟩
      · intro b1 hb; cases hb
      · intro e1 he1
        injection he1 with he1
        subst he1
        exact ⟨g1, Or.inr (f9 e rfl)⟩
    | ok u =>
      by_cases hw : w.writePARFile i ≠ SUCCESS ∨
          w.writeATSPFile i (w.buildDubinsAdjacencyMatrix G GA s0.Headings r) ≠ SUCCESS
      · rw [trialBody_unwritable w G GA r i b s s0 u hrh hw] at h
        simp only [Prod.mk.injEq] at h
        obtain ⟨rfl, rfl⟩ := h
        refine ⟨f2, f3, f8, evs ++ [Event.matrixBuilt i], by simp [St.log, f6], ?_, ?_, ?_⟩
        · simp [g2]
        · intro b1 hb; cases hb
        · intro e1 he1
          injection he1 with he1
          subst he1
          refine ⟨?_, Or.inl rfl⟩
          rw [trialRecords_append, g1]
          rfl
      · rw [trialBody_ok w G GA r i b s s0 u hrh hw] at h
        simp only [Prod.mk.injEq] at h
        obtain ⟨rfl, rfl⟩ := h
        refine ⟨f2, f3, f8, evs ++ [Event.matrixBuilt i, Event.solverRun i,
          Event.tourRead i (w.readTSPTourFile i
            (w.buildDubinsAdjacencyMatrix G GA s0.Headings r) s0.Tour).1,
          Event.trial (trialRecord w G GA r i b s0)], by simp [f6], ?_, ?_, ?_⟩
        · simp [g2]
        · intro b1 hb
          injection hb with hb
          subst hb
          refine ⟨_, ?_, trialRecord_of w G GA r i b s0, rfl, rfl⟩
          rw [trialRecords_append, g1]
          rfl
        · intro e1 he1; cases he1


/-- What the loop does to the state and to the log. -/
theorem trials_spec (w : World) (G : Graph) (GA : GraphAttributes) (r : ℚ) :
    ∀ (n i : Nat) (b : Best) (s : St) (res : Except Err Best) (s1 : St),
      trials w G GA r n i b s = (res, s1) →
      s1.Edges = s.Edges ∧ s1.cost = s.cost ∧
      s1.Headings.vals[0]? = s.Headings.vals[0]? ∧
      ∃ evs, s1.trace = s.trace ++ evs ∧ Event.edgesCreated ∉ evs ∧
        Chain w G GA r i b (trialRecords evs) ∧
        (∀ rec ∈ trialRecords evs, rec.Headings.vals[0]? = s.Headings.vals[0]?) ∧
        (trialRecords evs).length ≤ n ∧
        (∀ b1, res = .ok b1 →
          (trialRecords evs).length = n ∧ b1 = lastBest b (trialRecords evs)) ∧
        (∀ e, res = .error e → e = .failedCreatingFiles ∨ e = .assertionFailed) := by
  intro n
  induction n with
  | zero =>
    intro i b s res s1 h
    simp only [trials, Prod.mk.injEq] at h
    obtain ⟨rfl, rfl⟩ := h
    refine ⟨rfl, rfl, rfl, [], by simp, by simp, trivial, by simp [trialRecords],
      by simp [trialRecords], ?_, ?_⟩
    · intro b1 hb
      injection hb with hb
      subst hb
      exact ⟨rfl, rfl⟩
    · intro e he; cases he
  | succ n ih =>
    intro i b s res s1 h
    rw [trials] at h
    cases hb : trialBody w G GA r i b s with
    | mk res0 s0 =>
      obtain ⟨t1, t2, t3, evs0, t4, t5, t6, t7⟩ := trialBody_spec w G GA r i b s res0 s0 hb
      rw [hb] at h
      cases res0 with
      | error e =>
        simp only [Prod.mk.injEq] at h
        obtain ⟨rfl, rfl⟩ := h
        obtain ⟨t8, t9⟩ := t7 e rfl
        refine ⟨t1, t2, t3, evs0, t4, t5, ?_, ?_, ?_, ?_, ?_⟩
        · rw [t8]; trivial
        · rw [t8]; simp
        · rw [t8]; simp
        · intro b1 hb1; cases hb1
        · intro e1 he1
          injection he1 with he1
          subst he1
          exact t9
      | ok b0 =>
        simp only [] at h
        obtain ⟨rec, u1, u2, u3, u4⟩ := t6 b0 rfl
        obtain ⟨v1, v2, v3, evs1, v4, v5, v6, v7, v8, v9, v10⟩ := ih (i + 1) b0 s0 res s1 h
        refine ⟨v1.trans t1, v2.trans t2, v3.trans t3, evs0 ++ evs1, ?_, ?_, ?_, ?_, ?_, ?_, v10⟩
        · rw [v4, t4, List.append_assoc]
        · simp [t5, v5]
        · rw [trialRecords_append, u1]
          exact ⟨u2, by rw [u3]; exact v6⟩
        · rw [trialRecords_append, u1]
          intro rec1 hrec1
          rcases List.mem_append.1 hrec1 with hm | hm
          · rw [List.mem_singleton] at hm
            subst hm
            rw [u4]; exact t3
          · rw [v7 rec1 hm]; exact t3
        · rw [trialRecords_append, u1]
          simp only [List.length_append, List.length_singleton]
          omega
        · intro b1 hb1
          obtain ⟨w1, w2⟩ := v9 b1 hb1
          rw [trialRecords_append, u1]
          refine ⟨by simp only [List.length_append, List.length_singleton]; omega, ?_⟩
          rw [w2, ← u3]
          rfl


/-! ## The retained best along a chain of trials -/

theorem chain_step (w : World) (G : Graph) (GA : GraphAttributes) (r : ℚ) :
    ∀ (recs : List TrialRecord) (i : Nat) (b : Best) (k : Nat) (prev cur : TrialRecord),
      Chain w G GA r i b recs → recs[k]? = some prev → recs[k + 1]? = some cur →
      RecordOf w G GA r (i + k + 1) prev.best cur := by
  intro recs
  induction recs with
  | nil => intro i b k prev cur _ h; simp at h
  | cons rec rest ih =>
    intro i b k prev cur hc hp hcur
    obtain ⟨_, hc2⟩ := hc
    cases k with
    | zero =>
      simp only [List.getElem?_cons_zero, Option.some.injEq] at hp
      subst hp
      simp only [List.getElem?_cons_succ] at hcur
      cases rest with
      | nil => simp at hcur
      | cons rec2 rest2 =>
        simp only [List.getElem?_cons_zero, Option.some.injEq] at hcur
        subst hcur
        exact hc2.1
    | succ k =>
      simp only [List.getElem?_cons_succ] at hp hcur
      have := ih (i + 1) rec.best k prev cur hc2 hp hcur
      rwa [show i + 1 + k + 1 = i + (k + 1) + 1 by omega] at this

theorem chain_index (w : World) (G : Graph) (GA : GraphAttributes) (r : ℚ) :
    ∀ (recs : List TrialRecord) (i : Nat) (b : Best) (k : Nat) (rec : TrialRecord),
      Chain w G GA r i b recs → recs[k]? = some rec →
      rec.i = i + k ∧ rec.cost_i = w.dubinsTourCost G GA rec.Tour rec.Headings r true := by
  intro recs
  induction recs with
  | nil => intro i b k rec _ h; simp at h
  | cons rec0 rest ih =>
    intro i b k rec hc hk
    cases k with
    | zero =>
      simp only [List.getElem?_cons_zero, Option.some.injEq] at hk
      subst hk
      exact ⟨hc.1.1, hc.1.2.1⟩
    | succ k =>
      simp only [List.getElem?_cons_succ] at hk
      have := ih (i + 1) rec0.best k rec hc.2 hk
      rwa [show i + 1 + k = i + (k + 1) by omega] at this

theorem record_best_nonneg (w : World) (G : Graph) (GA : GraphAttributes) (r : ℚ) (i : Nat)
    (b : Best) (rec : TrialRecord) (h : RecordOf w G GA r i b rec) (hc : 0 ≤ rec.cost_i) :
    0 ≤ rec.best.bestCost := by
  obtain ⟨_, _, h3⟩ := h
  rw [h3]
  split
  · exact hc
  · rename_i hn
    push_neg at hn
    exact hn.2

theorem chain_best_nonneg (w : World) (G : Graph) (GA : GraphAttributes) (r : ℚ) :
    ∀ (recs : List TrialRecord) (i : Nat) (b : Best),
      Chain w G GA r i b recs → (∀ rec ∈ recs, 0 ≤ rec.cost_i) →
      ∀ rec ∈ recs, 0 ≤ rec.best.bestCost := by
  intro recs
  induction recs with
  | nil => intro i b _ _ rec h; simp at h
  | cons rec0 rest ih =>
    intro i b hc hnn rec hrec
    rcases List.mem_cons.1 hrec with rfl | hm
    · exact record_best_nonneg w G GA r i b rec hc.1 (hnn rec (List.mem_cons_self _ _))
    · exact ih (i + 1) rec0.best hc.2 (fun x hx => hnn x (List.mem_cons_of_mem _ hx)) rec hm

theorem earliestMin_step (w : World) (G : Graph) (GA : GraphAttributes) (r : ℚ) (i : Nat)
    (pre : List TrialRecord) (b : Best) (rec : TrialRecord)
    (hinv : EarliestMin pre b) (hrec : RecordOf w G GA r i b rec) (hnn : 0 ≤ rec.cost_i) :
    EarliestMin (pre ++ [rec]) rec.best := by
  obtain ⟨_, _, hbest⟩ := hrec
  rcases hinv with ⟨rfl, hneg⟩ | ⟨j, m, hj, hb, hm0, hmin, hearly⟩
  · right
    refine ⟨0, rec, by simp, ?_, hnn, by simp, ?_⟩
    · rw [hbest, if_pos (Or.inr hneg)]
    · intro k rec1 hk; omega
  · have hjlt : j < pre.length := by
      by_contra hge
      rw [List.getElem?_eq_none (by omega)] at hj
      cases hj
    have hbc : b.bestCost = m.cost_i := by rw [hb]
    by_cases hlt : rec.cost_i < m.cost_i
    · right
      refine ⟨pre.length, rec, by simp, ?_, hnn, ?_, ?_⟩
      · rw [hbest, if_pos (Or.inl (by rw [hbc]; exact hlt))]
      · intro rec1 h1
        rcases List.mem_append.1 h1 with h1 | h1
        · exact le_of_lt (lt_of_lt_of_le hlt (hmin rec1 h1))
        · rw [List.mem_singleton] at h1
          rw [h1]
      · intro k rec1 hk h1
        rw [List.getElem?_append_left hk] at h1
        exact lt_of_lt_of_le hlt (hmin rec1 (List.mem_iff_getElem?.2 ⟨k, h1⟩))
    · right
      have hkeep : rec.best = b := by
        rw [hbest, if_neg]
        rw [hbc]
        push_neg
        exact ⟨not_lt.1 hlt, hm0⟩
      refine ⟨j, m, ?_, by rw [hkeep, hb], hm0, ?_, ?_⟩
      · rw [List.getElem?_append_left hjlt]; exact hj
      · intro rec1 h1
        rcases List.mem_append.1 h1 with h1 | h1
        · exact hmin rec1 h1
        · rw [List.mem_singleton] at h1
          rw [h1]; exact not_lt.1 hlt
      · intro k rec1 hk h1
        rw [List.getElem?_append_left (by omega)] at h1
        exact hearly k rec1 hk h1

theorem earliestMin_chain (w : World) (G : Graph) (GA : GraphAttributes) (r : ℚ) :
    ∀ (suf pre : List TrialRecord) (i : Nat) (b : Best),
      EarliestMin pre b → Chain w G GA r i b suf → (∀ rec ∈ suf, 0 ≤ rec.cost_i) →
      EarliestMin (pre ++ suf) (lastBest b suf) := by
  intro suf
  induction suf with
  | nil => intro pre i b h _ _; simpa [lastBest] using h
  | cons rec rest ih =>
    intro pre i b hinv hc hnn
    have h1 := earliestMin_step w G GA r i pre b rec hinv hc.1 (hnn rec (List.mem_cons_self _ _))
    have h2 := ih (pre ++ [rec]) (i + 1) rec.best h1 hc.2
      (fun x hx => hnn x (List.mem_cons_of_mem _ hx))
    simpa [lastBest] using h2


theorem lastBest_getLast :
    ∀ (recs : List TrialRecord) (b : Best) (last : TrialRecord),
      recs.getLast? = some last → lastBest b recs = last.best := by
  intro recs
  induction recs with
  | nil => intro b last h; simp at h
  | cons rec rest ih =>
    intro b last h
    cases rest with
    | nil =>
      simp only [List.getLast?_singleton, Option.some.injEq] at h
      subst h
      rfl
    | cons rec2 rest2 =>
      rw [List.getLast?_cons_cons] at h
      exact ih rec.best last h

theorem lastBest_source (w : World) (G : Graph) (GA : GraphAttributes) (r : ℚ) :
    ∀ (recs : List TrialRecord) (i : Nat) (b : Best), Chain w G GA r i b recs →
      (lastBest b recs = b ∧ (recs = [] ∨ ¬ b.bestCost < 0)) ∨
      ∃ rec ∈ recs, lastBest b recs =
        { BestTour := rec.Tour, BestHeadings := rec.Headings, bestCost := rec.cost_i } := by
  intro recs
  induction recs with
  | nil => intro i b _; exact Or.inl ⟨rfl, Or.inl rfl⟩
  | cons rec rest ih =>
    intro i b hc
    obtain ⟨⟨_, _, hbest⟩, hc2⟩ := hc
    rcases ih (i + 1) rec.best hc2 with ⟨h1, _⟩ | ⟨rec1, hm, h1⟩
    · by_cases hcond : rec.cost_i < b.bestCost ∨ b.bestCost < 0
      · right
        refine ⟨rec, List.mem_cons_self _ _, ?_⟩
        rw [if_pos hcond] at hbest
        rw [← hbest]
        exact h1
      · left
        rw [if_neg hcond] at hbest
        refine ⟨?_, Or.inr (fun hlt => hcond (Or.inr hlt))⟩
        rw [← hbest]
        exact h1
    · exact Or.inr ⟨rec1, List.mem_cons_of_mem _ hm, h1⟩

/-! ## The whole of `run` -/

theorem finish_state (w : World) (G : Graph) (GA : GraphAttributes) (r : ℚ) (b : Best)
    (s : St) :
    (finish w G GA r b s).2 =
      { s with
        Headings := b.BestHeadings
        Tour := b.BestTour
        cost := (w.createDubinsTourEdges G GA b.BestTour b.BestHeadings r s.Edges true).1
        Edges := (w.createDubinsTourEdges G GA b.BestTour b.BestHeadings r s.Edges true).2
        trace := s.trace ++ [Event.edgesCreated] } := by
  unfold finish
  simp only []
  split <;> rfl

theorem finish_result (w : World) (G : Graph) (GA : GraphAttributes) (r : ℚ) (b : Best)
    (s : St) :
    (finish w G GA r b s).1 =
      if w.remove .tspFilename ≠ 0 ∧ w.remove .parFilename ≠ 0 ∧ w.remove .tourFilename ≠ 0
      then .error .failedDeletingFiles else .ok SUCCESS := by
  unfold finish
  simp only []
  split <;> rfl

/-- The three ways through `run`: rejected input, a trial that throws, and the final
steps after the last trial. -/
theorem run_cases (w : World) (G : Graph) (GA : GraphAttributes) (x r : ℚ) (c : Outputs)
    (returnToInitial : Bool) :
    ((x < 0 ∨ x ≥ M_PI * 2 ∨ c.Headings.graphOf ≠ some G.addr ∨ G.numberOfNodes < 2) ∧
      ∃ e, e.isInvalidArgument = true ∧
      RandomizedDTSP.run w G GA x r c returnToInitial = (.error e, St.enter c)) ∨
    (¬ (x < 0 ∨ x ≥ M_PI * 2 ∨ c.Headings.graphOf ≠ some G.addr ∨ G.numberOfNodes < 2) ∧
      2 ≤ G.numberOfNodes ∧ ∃ res s1,
      trials w G GA r ALGORITHM_ITERATIONS 0 Best.init
        (St.enter { c with Headings := c.Headings.assign 0 x }) = (res, s1) ∧
      ((∃ e, res = .error e ∧
          RandomizedDTSP.run w G GA x r c returnToInitial = (.error e, s1)) ∨
       (∃ b, res = .ok b ∧
          RandomizedDTSP.run w G GA x r c returnToInitial = finish w G GA r b s1))) := by
  unfold RandomizedDTSP.run
  by_cases h1 : x < 0 ∨ x ≥ M_PI * 2
  · refine Or.inl ⟨?_, .xOutOfRange, rfl, by rw [if_pos h1]⟩
    rcases h1 with h1 | h1
    · exact Or.inl h1
    · exact Or.inr (Or.inl h1)
  · rw [if_neg h1]
    by_cases h2 : c.Headings.graphOf ≠ some G.addr
    · exact Or.inl ⟨Or.inr (Or.inr (Or.inl h2)), .headingsNotForG, rfl, by rw [if_pos h2]⟩
    · rw [if_neg h2]
      by_cases h3 : G.numberOfNodes < 2
      · exact Or.inl ⟨Or.inr (Or.inr (Or.inr h3)), .tooFewNodes, rfl, by rw [if_pos h3]⟩
      · rw [if_neg h3]
        right
        refine ⟨?_, by omega, ?_⟩
        · rintro (h | h | h | h)
          · exact h1 (Or.inl h)
          · exact h1 (Or.inr h)
          · exact h2 h
          · exact h3 h
        simp only []
        cases htr : trials w G GA r ALGORITHM_ITERATIONS 0 Best.init
            (St.enter { c with Headings := c.Headings.assign 0 x }) with
        | mk res s1 =>
          refine ⟨res, s1, rfl, ?_⟩
          cases res with
          | error e => exact Or.inl ⟨e, rfl, rfl⟩
          | ok b => exact Or.inr ⟨b, rfl, rfl⟩

/-- The trial records of a run form a chain from the initial best; a run that passes
line 175 has made all its trials and hands out the last retained best. -/
theorem run_records (w : World) (G : Graph) (GA : GraphAttributes) (x r : ℚ) (c : Outputs)
    (returnToInitial : Bool) :
    Chain w G GA r 0 Best.init
      (trialRecords (RandomizedDTSP.run w G GA x r c returnToInitial).2.trace) ∧
    (∀ rec ∈ trialRecords (RandomizedDTSP.run w G GA x r c returnToInitial).2.trace,
      2 ≤ G.numberOfNodes ∧ rec.Headings.vals[0]? = (c.Headings.assign 0 x).vals[0]?) ∧
    (Event.edgesCreated ∈ (RandomizedDTSP.run w G GA x r c returnToInitial).2.trace →
      (trialRecords (RandomizedDTSP.run w G GA x r c returnToInitial).2.trace).length
        = ALGORITHM_ITERATIONS ∧
      (RandomizedDTSP.run w G GA x r c returnToInitial).2.Tour =
        (lastBest Best.init (trialRecords
          (RandomizedDTSP.run w G GA x r c returnToInitial).2.trace)).BestTour ∧
      (RandomizedDTSP.run w G GA x r c returnToInitial).2.Headings =
        (lastBest Best.init (trialRecords
          (RandomizedDTSP.run w G GA x r c returnToInitial).2.trace)).BestHeadings ∧
      (RandomizedDTSP.run w G GA x r c returnToInitial).1 =
        if w.remove .tspFilename ≠ 0 ∧ w.remove .parFilename ≠ 0 ∧
          w.remove .tourFilename ≠ 0
        then .error .failedDeletingFiles else .ok SUCCESS) ∧
    (Event.edgesCreated ∉ (RandomizedDTSP.run w G GA x r c returnToInitial).2.trace →
      ∃ e, (RandomizedDTSP.run w G GA x r c returnToInitial).1 = .error e ∧
        e ≠ .failedDeletingFiles) := by
  rcases run_cases w G GA x r c returnToInitial with
    ⟨_, e, he, hrun⟩ | ⟨_, hn, res, s1, htr, hrun⟩
  · rw [hrun]
    refine ⟨trivial, by simp [St.enter, trialRecords], by simp [St.enter], ?_⟩
    intro _
    exact ⟨e, rfl, by rintro rfl; cases he⟩
  · obtain ⟨p1, p2, p3, evs, p4, p5, p6, p7, p8, p9, p10⟩ :=
      trials_spec w G GA r ALGORITHM_ITERATIONS 0 Best.init _ res s1 htr
    have p4 : s1.trace = evs := by simpa [St.enter] using p4
    rcases hrun with ⟨e, rfl, hrun⟩ | ⟨b, rfl, hrun⟩
    · rw [hrun]
      simp only [p4]
      refine ⟨p6, fun rec hrec => ⟨hn, p7 rec hrec⟩, fun h => absurd h p5, ?_⟩
      intro _
      refine ⟨e, rfl, ?_⟩
      rcases p10 e rfl with h | h <;> rw [h] <;> decide
    · obtain ⟨q1, q2⟩ := p9 b rfl
      have hst := finish_state w G GA r b s1
      have hres := finish_result w G GA r b s1
      rw [hrun]
      have htrace : (finish w G GA r b s1).2.trace = evs ++ [Event.edgesCreated] := by
        rw [hst, p4]
      have hrecs : trialRecords (finish w G GA r b s1).2.trace = trialRecords evs := by
        rw [htrace, trialRecords_append]
        simp [trialRecords]
      rw [hrecs]
      refine ⟨p6, fun rec hrec => ⟨hn, p7 rec hrec⟩, ?_, ?_⟩
      · intro _
        refine ⟨q1, ?_, ?_, hres⟩
        · rw [hst, q2]
        · rw [hst, q2]
      · intro h
        exact absurd (by rw [htrace]; simp) h


/-! ## Best-of-N selection -/

/-- C5: in a run that returns SUCCESS and whose trial costs are all non-negative, the
ten trials were all made, the best cost retained after the last one is the least of the
trial costs, and the `Tour` and `Headings` handed back are those of the earliest trial
of that cost. -/
theorem run_returns_earliest_minimum (w : World) (G : Graph) (GA : GraphAttributes)
    (x r : ℚ) (c : Outputs) (returnToInitial : Bool)
    (hok : (RandomizedDTSP.run w G GA x r c returnToInitial).1 = .ok SUCCESS)
    (hnn : ∀ rec ∈ trialRecords (RandomizedDTSP.run w G GA x r c returnToInitial).2.trace,
      0 ≤ rec.cost_i) :
    (trialRecords (RandomizedDTSP.run w G GA x r c returnToInitial).2.trace).length
      = ALGORITHM_ITERATIONS ∧
    ∃ (j : Nat) (m last : TrialRecord),
      (trialRecords (RandomizedDTSP.run w G GA x r c returnToInitial).2.trace)[j]? = some m ∧
      (trialRecords (RandomizedDTSP.run w G GA x r c returnToInitial).2.trace).getLast?
        = some last ∧
      last.best.bestCost = m.cost_i ∧
      (∀ rec ∈ trialRecords (RandomizedDTSP.run w G GA x r c returnToInitial).2.trace,
        m.cost_i ≤ rec.cost_i) ∧
      (∀ (k : Nat) (rec : TrialRecord), k < j →
        (trialRecords (RandomizedDTSP.run w G GA x r c returnToInitial).2.trace)[k]?
          = some rec → m.cost_i < rec.cost_i) ∧
      (RandomizedDTSP.run w G GA x r c returnToInitial).2.Tour = m.Tour ∧
      (RandomizedDTSP.run w G GA x r c returnToInitial).2.Headings = m.Headings := by
  obtain ⟨hchain, _, hfin, hnot⟩ := run_records w G GA x r c returnToInitial
  have hmem : Event.edgesCreated ∈
      (RandomizedDTSP.run w G GA x r c returnToInitial).2.trace := by
    by_contra hne
    obtain ⟨e, he, _⟩ := hnot hne
    rw [hok] at he
    cases he
  obtain ⟨hlen, htour, hhead, _⟩ := hfin hmem
  refine ⟨hlen, ?_⟩
  generalize trialRecords (RandomizedDTSP.run w G GA x r c returnToInitial).2.trace = recs
    at hchain hnn hlen htour hhead
  have hinv := earliestMin_chain w G GA r recs [] 0 Best.init
    (Or.inl ⟨rfl, by simp [Best.init]⟩) hchain hnn
  rw [List.nil_append] at hinv
  rcases hinv with ⟨hnil, _⟩ | ⟨j, m, hj, hb, _, hmin, hearly⟩
  · rw [hnil] at hlen
    cases hlen
  · cases hlast : recs.getLast? with
    | none =>
      rw [List.getLast?_eq_none_iff] at hlast
      rw [hlast] at hlen
      cases hlen
    | some last =>
      have hl := lastBest_getLast recs Best.init last hlast
      refine ⟨j, m, last, hj, rfl, ?_, hmin, hearly, ?_, ?_⟩
      · rw [← hl, hb]
      · rw [htour, hb]
      · rw [hhead, hb]

/-- Witness of C5: scenario A, where all ten trials cost the same. -/
theorem run_returns_earliest_minimum_witness :
    (trialRecords (RandomizedDTSP.run scenarioWorld scenarioG scenarioGA 0 1
      scenarioOutputs true).2.trace).length = ALGORITHM_ITERATIONS ∧
    ∃ (j : Nat) (m last : TrialRecord),
      (trialRecords (RandomizedDTSP.run scenarioWorld scenarioG scenarioGA 0 1
        scenarioOutputs true).2.trace)[j]? = some m ∧
      (trialRecords (RandomizedDTSP.run scenarioWorld scenarioG scenarioGA 0 1
        scenarioOutputs true).2.trace).getLast? = some last ∧
      last.best.bestCost = m.cost_i ∧
      (∀ rec ∈ trialRecords (RandomizedDTSP.run scenarioWorld scenarioG scenarioGA 0 1
        scenarioOutputs true).2.trace, m.cost_i ≤ rec.cost_i) ∧
      (∀ (k : Nat) (rec : TrialRecord), k < j →
        (trialRecords (RandomizedDTSP.run scenarioWorld scenarioG scenarioGA 0 1
          scenarioOutputs true).2.trace)[k]? = some rec → m.cost_i < rec.cost_i) ∧
      (RandomizedDTSP.run scenarioWorld scenarioG scenarioGA 0 1
        scenarioOutputs true).2.Tour = m.Tour ∧
      (RandomizedDTSP.run scenarioWorld scenarioG scenarioGA 0 1
        scenarioOutputs true).2.Headings = m.Headings :=
  run_returns_earliest_minimum scenarioWorld scenarioG scenarioGA 0 1 scenarioOutputs true
    (by decide!) (by decide!)

/-- C6: when the trial costs of a run are non-negative, the best cost retained after a
trial is at most the one retained after the trial before it; the retained best changes
in a trial only if that trial is the first or its cost is strictly below the retained
best cost, and a trial of equal cost leaves it as it was. -/
theorem best_cost_non_increasing (w : World) (G : Graph) (GA : GraphAttributes)
    (x r : ℚ) (c : Outputs) (returnToInitial : Bool)
    (hnn : ∀ rec ∈ trialRecords (RandomizedDTSP.run w G GA x r c returnToInitial).2.trace,
      0 ≤ rec.cost_i) :
    (∀ (i : Nat) (prev cur : TrialRecord),
      (trialRecords (RandomizedDTSP.run w G GA x r c returnToInitial).2.trace)[i]?
        = some prev →
      (trialRecords (RandomizedDTSP.run w G GA x r c returnToInitial).2.trace)[i + 1]?
        = some cur →
      cur.i = i + 1 ∧
      cur.best.bestCost ≤ prev.best.bestCost ∧
      (cur.best ≠ prev.best → cur.cost_i < prev.best.bestCost) ∧
      (cur.cost_i = prev.best.bestCost → cur.best = prev.best)) ∧
    (∀ first : TrialRecord,
      (trialRecords (RandomizedDTSP.run w G GA x r c returnToInitial).2.trace)[0]?
        = some first →
      first.i = 0 ∧ first.best =
        { BestTour := first.Tour, BestHeadings := first.Headings,
          bestCost := first.cost_i }) := by
  obtain ⟨hchain, _, _, _⟩ := run_records w G GA x r c returnToInitial
  generalize trialRecords (RandomizedDTSP.run w G GA x r c returnToInitial).2.trace = recs
    at hchain hnn
  constructor
  · intro i prev cur hp hcur
    have hrec := chain_step w G GA r recs 0 Best.init i prev cur hchain hp hcur
    have hpn := chain_best_nonneg w G GA r recs 0 Best.init hchain hnn prev
      (List.mem_iff_getElem?.2 ⟨i, hp⟩)
    obtain ⟨hi, _, hbest⟩ := hrec
    have hnneg : ¬ prev.best.bestCost < 0 := not_lt.2 hpn
    refine ⟨by omega, ?_, ?_, ?_⟩
    · rw [hbest]
      split
      · rename_i hcond
        rcases hcond with h | h
        · exact le_of_lt h
        · exact absurd h hnneg
      · exact le_refl _
    · intro hne
      by_contra hlt
      apply hne
      rw [hbest, if_neg]
      rintro (h | h)
      · exact hlt h
      · exact hnneg h
    · intro heq
      rw [hbest, if_neg]
      rintro (h | h)
      · rw [heq] at h
        exact lt_irrefl _ h
      · exact hnneg h
  · intro first hf
    cases recs with
    | nil => simp at hf
    | cons rec rest =>
      simp only [List.getElem?_cons_zero, Option.some.injEq] at hf
      subst hf
      obtain ⟨⟨hi, _, hbest⟩, _⟩ := hchain
      refine ⟨hi, ?_⟩
      rw [hbest, if_pos (Or.inr (by simp [Best.init]))]

/-- Witness of C6: scenario A. -/
theorem best_cost_non_increasing_witness :
    (∀ (i : Nat) (prev cur : TrialRecord),
      (trialRecords (RandomizedDTSP.run scenarioWorld scenarioG scenarioGA 0 1
        scenarioOutputs true).2.trace)[i]? = some prev →
      (trialRecords (RandomizedDTSP.run scenarioWorld scenarioG scenarioGA 0 1
        scenarioOutputs true).2.trace)[i + 1]? = some cur →
      cur.i = i + 1 ∧
      cur.best.bestCost ≤ prev.best.bestCost ∧
      (cur.best ≠ prev.best → cur.cost_i < prev.best.bestCost) ∧
      (cur.cost_i = prev.best.bestCost → cur.best = prev.best)) ∧
    (∀ first : TrialRecord,
      (trialRecords (RandomizedDTSP.run scenarioWorld scenarioG scenarioGA 0 1
        scenarioOutputs true).2.trace)[0]? = some first →
      first.i = 0 ∧ first.best =
        { BestTour := first.Tour, BestHeadings := first.Headings,
          bestCost := first.cost_i }) :=
  best_cost_non_increasing scenarioWorld scenarioG scenarioGA 0 1 scenarioOutputs true
    (by decide!)


/-! ## The origin heading -/

theorem randomizeHeadings_fresh (w : World) (G : Graph) (s s1 : St)
    (h : randomizeHeadings w G s true = (.ok (), s1)) :
    ∀ j, 0 < j → j < G.numberOfNodes → j < s.Headings.vals.length →
      s1.Headings.vals[j]? = some (headingOfDraw (w.uniform_dist (s.drawn + (j - 1)))) := by
  intro j hj hjn hjl
  unfold randomizeHeadings Graph.nodes at h
  cases hn : G.numberOfNodes with
  | zero => omega
  | succ k =>
    rw [hn, List.range_eq_range', List.range'_succ] at h
    unfold randomizeNodes at h
    rw [if_pos ⟨rfl, (firstNode_eq G 0).2 ⟨rfl, by omega⟩⟩] at h
    exact (randomizeNodes_fresh w G k 1 s s1 (le_refl 1) h).2.2 j hj (by omega) hjl

/-- C7: `randomizeHeadings` with `skipOrigin = true` leaves the heading of the first node
as it is and gives every other node a draw of its own; in a run on a `Headings` array
with one slot per node, the origin heading of every trial, and of the `Headings` a
successful run hands back, is the caller's `x`. -/
theorem origin_heading_fixed (w : World) (G : Graph) (GA : GraphAttributes)
    (x r : ℚ) (c : Outputs) (returnToInitial : Bool)
    (hwf : c.Headings.vals.length = G.numberOfNodes) :
    (∀ s : St, (randomizeHeadings w G s true).2.Headings.vals[0]? = s.Headings.vals[0]?) ∧
    (∀ s s1 : St, randomizeHeadings w G s true = (.ok (), s1) →
      ∀ j, 0 < j → j < G.numberOfNodes → j < s.Headings.vals.length →
        s1.Headings.vals[j]? = some (headingOfDraw (w.uniform_dist (s.drawn + (j - 1))))) ∧
    (∀ rec ∈ trialRecords (RandomizedDTSP.run w G GA x r c returnToInitial).2.trace,
      rec.Headings.vals[0]? = some x) ∧
    ((RandomizedDTSP.run w G GA x r c returnToInitial).1 = .ok SUCCESS →
      (RandomizedDTSP.run w G GA x r c returnToInitial).2.Headings.vals[0]? = some x) := by
  obtain ⟨hchain, horigin, hfin, hnot⟩ := run_records w G GA x r c returnToInitial
  have hx : 2 ≤ G.numberOfNodes → (c.Headings.assign 0 x).vals[0]? = some x := by
    intro hn
    simp only [NodeArray.assign]
    rw [List.getElem?_set_self (by omega)]
  have hrecs : ∀ rec ∈ trialRecords (RandomizedDTSP.run w G GA x r c returnToInitial).2.trace,
      rec.Headings.vals[0]? = some x := by
    intro rec hrec
    obtain ⟨hn, h0⟩ := horigin rec hrec
    rw [h0]
    exact hx hn
  refine ⟨?_, fun s s1 h => randomizeHeadings_fresh w G s s1 h, hrecs, ?_⟩
  · intro s
    exact randomizeNodes_origin w G G.nodes s (by
      intro h0
      have := List.mem_range.1 h0
      omega)
  · intro hok
    have hmem : Event.edgesCreated ∈
        (RandomizedDTSP.run w G GA x r c returnToInitial).2.trace := by
      by_contra hne
      obtain ⟨e, he, _⟩ := hnot hne
      rw [hok] at he
      cases he
    obtain ⟨hlen, _, hhead, _⟩ := hfin hmem
    rw [hhead]
    rcases lastBest_source w G GA r _ 0 Best.init hchain with ⟨_, hnil | hneg⟩ | ⟨rec, hm, hl⟩
    · rw [hnil] at hlen
      cases hlen
    · exact absurd (by simp [Best.init]) hneg
    · rw [hl]
      exact hrecs rec hm

/-- Witness of C7: scenario A with origin heading 1. -/
theorem origin_heading_fixed_witness :
    (∀ s : St, (randomizeHeadings scenarioWorld scenarioG s true).2.Headings.vals[0]?
      = s.Headings.vals[0]?) ∧
    (∀ s s1 : St, randomizeHeadings scenarioWorld scenarioG s true = (.ok (), s1) →
      ∀ j, 0 < j → j < scenarioG.numberOfNodes → j < s.Headings.vals.length →
        s1.Headings.vals[j]?
          = some (headingOfDraw (scenarioWorld.uniform_dist (s.drawn + (j - 1))))) ∧
    (∀ rec ∈ trialRecords (RandomizedDTSP.run scenarioWorld scenarioG scenarioGA 1 1
        scenarioOutputs true).2.trace, rec.Headings.vals[0]? = some 1) ∧
    ((RandomizedDTSP.run scenarioWorld scenarioG scenarioGA 1 1
        scenarioOutputs true).1 = .ok SUCCESS →
      (RandomizedDTSP.run scenarioWorld scenarioG scenarioGA 1 1
        scenarioOutputs true).2.Headings.vals[0]? = some 1) :=
  origin_heading_fixed scenarioWorld scenarioG scenarioGA 1 1 scenarioOutputs true (by decide)

/-! ## The score of a trial -/

/-- The flag `returnToInitial` is never read: both values give the same run. -/
theorem run_flag_unused (w : World) (G : Graph) (GA : GraphAttributes) (x r : ℚ)
    (c : Outputs) :
    RandomizedDTSP.run w G GA x r c true = RandomizedDTSP.run w G GA x r c false :=
  rfl

/-- C9, as the code has it: in a run with `returnToInitial = true`, every trial is scored
by `dubinsTourCost` called with the flag `true`, the closing edge included, and that
score is what lines 160-164 compare with the best cost retained before the trial. -/
theorem trial_score_closes_loop (w : World) (G : Graph) (GA : GraphAttributes)
    (x r : ℚ) (c : Outputs) :
    (∀ rec ∈ trialRecords (RandomizedDTSP.run w G GA x r c true).2.trace,
      rec.cost_i = w.dubinsTourCost G GA rec.Tour rec.Headings r true) ∧
    (∀ first : TrialRecord,
      (trialRecords (RandomizedDTSP.run w G GA x r c true).2.trace)[0]? = some first →
      RecordOf w G GA r 0 Best.init first) ∧
    (∀ (i : Nat) (prev cur : TrialRecord),
      (trialRecords (RandomizedDTSP.run w G GA x r c true).2.trace)[i]? = some prev →
      (trialRecords (RandomizedDTSP.run w G GA x r c true).2.trace)[i + 1]? = some cur →
      RecordOf w G GA r (i + 1) prev.best cur) := by
  obtain ⟨hchain, _, _, _⟩ := run_records w G GA x r c true
  refine ⟨?_, ?_, ?_⟩
  · intro rec hrec
    obtain ⟨k, hk⟩ := List.mem_iff_getElem?.1 hrec
    exact (chain_index w G GA r _ 0 Best.init k rec hchain hk).2
  · intro first hf
    generalize trialRecords (RandomizedDTSP.run w G GA x r c true).2.trace = recs
      at hchain hf
    cases recs with
    | nil => simp at hf
    | cons rec rest =>
      simp only [List.getElem?_cons_zero, Option.some.injEq] at hf
      subst hf
      exact hchain.1
  · intro i prev cur hp hcur
    have := chain_step w G GA r _ 0 Best.init i prev cur hchain hp hcur
    rwa [Nat.zero_add] at this

/-- C9 as stated fails: in scenario A with `returnToInitial = true` every trial is scored
`20 + TWO_PI`, the closing edge included, where the tour without loop closure costs 10. -/
theorem trial_score_without_closure_fails :
    (∀ rec ∈ trialRecords (RandomizedDTSP.run scenarioWorld scenarioG scenarioGA 0 1
        scenarioOutputs true).2.trace,
      rec.cost_i = 20 + TWO_PI ∧
      specTourCost scenarioLength rec.Tour rec.Headings false = 10) ∧
    ¬ ∀ rec ∈ trialRecords (RandomizedDTSP.run scenarioWorld scenarioG scenarioGA 0 1
        scenarioOutputs true).2.trace,
      rec.cost_i = specTourCost scenarioLength rec.Tour rec.Headings false := by
  decide!

/-! ## Cleanup -/

/-- C10: once `run` has reached line 175, it throws "Failed to delete temporary files."
exactly when `std::remove` fails on all three temporary files; if it succeeds on at least
one of them, `run` returns SUCCESS. -/
theorem cleanup_fails_iff_all_deletions_fail (w : World) (G : Graph) (GA : GraphAttributes)
    (x r : ℚ) (c : Outputs) (returnToInitial : Bool)
    (h : Event.edgesCreated ∈ (RandomizedDTSP.run w G GA x r c returnToInitial).2.trace) :
    ((RandomizedDTSP.run w G GA x r c returnToInitial).1 = .error .failedDeletingFiles ↔
      (w.remove .tspFilename ≠ 0 ∧ w.remove .parFilename ≠ 0 ∧
        w.remove .tourFilename ≠ 0)) ∧
    ((w.remove .tspFilename = 0 ∨ w.remove .parFilename = 0 ∨ w.remove .tourFilename = 0) →
      (RandomizedDTSP.run w G GA x r c returnToInitial).1 = .ok SUCCESS) ∧
    Err.what .failedDeletingFiles = "Failed to delete temporary files." := by
  obtain ⟨_, _, hfin, _⟩ := run_records w G GA x r c returnToInitial
  obtain ⟨_, _, _, hres⟩ := hfin h
  rw [hres]
  refine ⟨?_, ?_, rfl⟩
  · constructor
    · intro hh
      by_contra hn
      rw [if_neg hn] at hh
      cases hh
    · intro hh
      rw [if_pos hh]
  · intro hh
    rw [if_neg]
    rintro ⟨h1, h2, h3⟩
    rcases hh with hh | hh | hh
    · exact h1 hh
    · exact h2 hh
    · exact h3 hh

/-- Witness of C10: scenario A where no temporary file can be deleted. -/
theorem cleanup_fails_iff_all_deletions_fail_witness :
    ((RandomizedDTSP.run undeletableWorld scenarioG scenarioGA 0 1
        scenarioOutputs true).1 = .error .failedDeletingFiles ↔
      (undeletableWorld.remove .tspFilename ≠ 0 ∧ undeletableWorld.remove .parFilename ≠ 0 ∧
        undeletableWorld.remove .tourFilename ≠ 0)) ∧
    ((undeletableWorld.remove .tspFilename = 0 ∨ undeletableWorld.remove .parFilename = 0 ∨
        undeletableWorld.remove .tourFilename = 0) →
      (RandomizedDTSP.run undeletableWorld scenarioG scenarioGA 0 1
        scenarioOutputs true).1 = .ok SUCCESS) ∧
    Err.what .failedDeletingFiles = "Failed to delete temporary files." :=
  cleanup_fails_iff_all_deletions_fail undeletableWorld scenarioG scenarioGA 0 1
    scenarioOutputs true (by decide!)

/-! ## Failure and the caller's outputs -/

theorem randomizeNodes_remove (w : World) (G : Graph) (skip : Bool) (f : TempFile → Int) :
    ∀ (l : List Nat) (s : St),
      randomizeNodes { w with remove := f } G skip l s = randomizeNodes w G skip l s := by
  intro l
  induction l with
  | nil => intro s; rfl
  | cons i rest ih =>
    intro s
    unfold randomizeNodes
    rw [ih s]
    have hrh : randomHeading { w with remove := f } s = randomHeading w s := rfl
    rw [hrh]
    split
    · rfl
    · split
      · rfl
      · exact ih _

theorem trials_remove (w : World) (G : Graph) (GA : GraphAttributes) (r : ℚ)
    (f : TempFile → Int) :
    ∀ (n i : Nat) (b : Best) (s : St),
      trials { w with remove := f } G GA r n i b s = trials w G GA r n i b s := by
  intro n
  induction n with
  | zero => intro i b s; rfl
  | succ n ih =>
    intro i b s
    have hb : trialBody { w with remove := f } G GA r i b s = trialBody w G GA r i b s := by
      unfold trialBody randomizeHeadings
      rw [randomizeNodes_remove]
    rw [trials, trials, hb]
    split
    · rfl
    · exact ih _ _ _

/-- C4, as the code has it: when `run` throws an invalid-argument exception the caller-owned
`Headings`, `Tour`, `Edges` and `cost` are as before the call; when it throws for the
problem files, `Edges` and `cost` are as before the call; when it throws for the
temporary files, the four outputs are those of the same run with the deletions
succeeding, which returns SUCCESS. -/
theorem run_failure_outputs (w : World) (G : Graph) (GA : GraphAttributes)
    (x r : ℚ) (c : Outputs) (returnToInitial : Bool) (e : Err)
    (h : (RandomizedDTSP.run w G GA x r c returnToInitial).1 = .error e) :
    (e.isInvalidArgument = true →
      (RandomizedDTSP.run w G GA x r c returnToInitial).2.toOutputs = c) ∧
    (e = .failedCreatingFiles →
      (RandomizedDTSP.run w G GA x r c returnToInitial).2.Edges = c.Edges ∧
      (RandomizedDTSP.run w G GA x r c returnToInitial).2.cost = c.cost) ∧
    (e = .failedDeletingFiles →
      (RandomizedDTSP.run { w with remove := fun _ => 0 } G GA x r c returnToInitial).1
        = .ok SUCCESS ∧
      (RandomizedDTSP.run w G GA x r c returnToInitial).2.toOutputs =
        (RandomizedDTSP.run { w with remove := fun _ => 0 } G GA x r c
          returnToInitial).2.toOutputs) := by
  rcases run_cases w G GA x r c returnToInitial with
    ⟨_, e1, he1, hrun⟩ | ⟨hgood, hn, res, s1, htr, hrun⟩
  · rw [hrun] at h ⊢
    injection h with h
    subst h
    refine ⟨fun _ => rfl, ?_, ?_⟩
    · rintro rfl; cases he1
    · rintro rfl; cases he1
  · obtain ⟨p1, p2, _, evs, _, _, _, _, _, _, p10⟩ :=
      trials_spec w G GA r ALGORITHM_ITERATIONS 0 Best.init _ res s1 htr
    rcases hrun with ⟨e1, rfl, hrun⟩ | ⟨b, rfl, hrun⟩
    · rw [hrun] at h ⊢
      injection h with h
      subst h
      refine ⟨?_, fun _ => ⟨p1, p2⟩, ?_⟩
      · intro hinv
        rcases p10 e1 rfl with rfl | rfl <;> cases hinv
      · rintro rfl
        rcases p10 _ rfl with hh | hh <;> cases hh
    · have hres := finish_result w G GA r b s1
      rw [hrun] at h ⊢
      rw [hres] at h
      have he : e = .failedDeletingFiles := by
        split at h
        · injection h with h
          exact h.symm
        · cases h
      subst he
      refine ⟨fun hinv => (by cases hinv), fun hh => (by cases hh), fun _ => ?_⟩
      have htr2 := trials_remove w G GA r (fun _ => 0) ALGORITHM_ITERATIONS 0 Best.init
        (St.enter { c with Headings := c.Headings.assign 0 x })
      rcases run_cases { w with remove := fun _ => 0 } G GA x r c returnToInitial with
        ⟨hbad, _⟩ | ⟨_, _, res2, s2, htr3, hrun2⟩
      · exact absurd hbad hgood
      · rw [htr2, htr] at htr3
        simp only [Prod.mk.injEq] at htr3
        obtain ⟨rfl, rfl⟩ := htr3
        rcases hrun2 with ⟨e2, he2, _⟩ | ⟨b2, hb2, hrun2⟩
        · cases he2
        · injection hb2 with hb2
          subst hb2
          rw [hrun2, finish_result, finish_state, finish_state]
          exact ⟨by simp, rfl⟩


/-- Witness of C4 as amended: scenario A where `writePARFile` fails. -/
theorem run_failure_outputs_witness :
    (Err.failedCreatingFiles.isInvalidArgument = true →
      (RandomizedDTSP.run unwritableWorld scenarioG scenarioGA 0 1
        scenarioOutputs false).2.toOutputs = scenarioOutputs) ∧
    (Err.failedCreatingFiles = .failedCreatingFiles →
      (RandomizedDTSP.run unwritableWorld scenarioG scenarioGA 0 1
        scenarioOutputs false).2.Edges = scenarioOutputs.Edges ∧
      (RandomizedDTSP.run unwritableWorld scenarioG scenarioGA 0 1
        scenarioOutputs false).2.cost = scenarioOutputs.cost) ∧
    (Err.failedCreatingFiles = .failedDeletingFiles →
      (RandomizedDTSP.run { unwritableWorld with remove := fun _ => 0 } scenarioG scenarioGA
        0 1 scenarioOutputs false).1 = .ok SUCCESS ∧
      (RandomizedDTSP.run unwritableWorld scenarioG scenarioGA 0 1
        scenarioOutputs false).2.toOutputs =
        (RandomizedDTSP.run { unwritableWorld with remove := fun _ => 0 } scenarioG scenarioGA
          0 1 scenarioOutputs false).2.toOutputs) :=
  run_failure_outputs unwritableWorld scenarioG scenarioGA 0 1 scenarioOutputs false
    .failedCreatingFiles (by decide!)

/-- C4 as stated fails: in scenario A a failure to write the
problem files leaves `Headings` overwritten, and a failure to delete the temporary files
leaves all of the solution in the outputs. -/
theorem run_failure_mutates_outputs :
    (RandomizedDTSP.run unwritableWorld scenarioG scenarioGA 0 1
      scenarioOutputs false).1 = .error .failedCreatingFiles ∧
    (RandomizedDTSP.run unwritableWorld scenarioG scenarioGA 0 1
      scenarioOutputs false).2.Headings.vals = [0, 0] ∧
    scenarioOutputs.Headings.vals = [5, 5] ∧
    (RandomizedDTSP.run unwritableWorld scenarioG scenarioGA 0 1
      scenarioOutputs false).2.toOutputs ≠ scenarioOutputs ∧
    (RandomizedDTSP.run undeletableWorld scenarioG scenarioGA 0 1
      scenarioOutputs false).1 = .error .failedDeletingFiles ∧
    (RandomizedDTSP.run undeletableWorld scenarioG scenarioGA 0 1
      scenarioOutputs false).2.Tour = [0, 1] ∧
    (RandomizedDTSP.run undeletableWorld scenarioG scenarioGA 0 1
      scenarioOutputs false).2.toOutputs ≠ scenarioOutputs := by
  decide!

/-! ## An unreadable tour file -/

/-- C2 against the code: in scenario A where `readTSPTourFile` fails in trial 0, `run`
throws nothing and returns SUCCESS; trial 0 is scored on the `Tour` the failed read left
(empty, cost 0), the nine later trials run, and the empty tour of cost 0 is what the
caller gets. -/
theorem run_continues_after_unreadable_tour :
    Event.tourRead 0 1 ∈ (RandomizedDTSP.run unreadableWorld scenarioG scenarioGA 0 1
      scenarioOutputs true).2.trace ∧
    (1 : Int) ≠ SUCCESS ∧
    (RandomizedDTSP.run unreadableWorld scenarioG scenarioGA 0 1
      scenarioOutputs true).1 = .ok SUCCESS ∧
    (trialRecords (RandomizedDTSP.run unreadableWorld scenarioG scenarioGA 0 1
      scenarioOutputs true).2.trace).map (fun rec => (rec.i, rec.Tour, rec.cost_i))
      = [(0, [], 0), (1, [0, 1], 20 + TWO_PI), (2, [0, 1], 20 + TWO_PI),
         (3, [0, 1], 20 + TWO_PI), (4, [0, 1], 20 + TWO_PI), (5, [0, 1], 20 + TWO_PI),
         (6, [0, 1], 20 + TWO_PI), (7, [0, 1], 20 + TWO_PI), (8, [0, 1], 20 + TWO_PI),
         (9, [0, 1], 20 + TWO_PI)] ∧
    (RandomizedDTSP.run unreadableWorld scenarioG scenarioGA 0 1
      scenarioOutputs true).2.Tour = [] ∧
    (RandomizedDTSP.run unreadableWorld scenarioG scenarioGA 0 1
      scenarioOutputs true).2.cost = 0 := by
  decide!

/-! ## The closing edge of the final tour -/

/-- C3 against the code: in scenario A with `returnToInitial = false`, `run` returns the
tour `0, 1` with the closing edge from node 1 back to node 0 among `Edges` and in `cost`;
evaluated without loop closure the tour has the single edge from 0 to 1 and cost 10. -/
theorem run_closes_loop_when_not_asked :
    (RandomizedDTSP.run scenarioWorld scenarioG scenarioGA 0 1
      scenarioOutputs false).1 = .ok SUCCESS ∧
    (RandomizedDTSP.run scenarioWorld scenarioG scenarioGA 0 1
      scenarioOutputs false).2.Tour = [0, 1] ∧
    (RandomizedDTSP.run scenarioWorld scenarioG scenarioGA 0 1
      scenarioOutputs false).2.Headings.vals = [0, 0] ∧
    (RandomizedDTSP.run scenarioWorld scenarioG scenarioGA 0 1
      scenarioOutputs false).2.cost = 10 + (10 + TWO_PI) ∧
    (RandomizedDTSP.run scenarioWorld scenarioG scenarioGA 0 1
      scenarioOutputs false).2.Edges
      = [{ source := 0, target := 1 }, { source := 1, target := 0 }] ∧
    specTourEdges scenarioLength [0, 1] { graphOf := some 1, vals := [0, 0] } false
      = (10, [{ source := 0, target := 1 }]) := by
  decide!

/-! ## The range of `randomHeading` -/

/-- Every draw strictly between 26353589 / 2^22 (the midpoint of the `float`s 0x40C90FDA
and 0x40C90FDB) and `TWO_PI` is rounded up by line 47 to the `float` 0x40C90FDB. -/
theorem headingOfDraw_near_two_pi (u : ℚ) (h1 : 26353589 / 2 ^ 22 < u) (h2 : u < TWO_PI) :
    headingOfDraw u = 13176795 / 2 ^ 21 := by
  have hT : TWO_PI = 884279719003555 / 140737488355328 := by
    unfold TWO_PI M_PI
    norm_num
  have hTpos : (0 : ℚ) < TWO_PI := by rw [hT]; norm_num
  have hu4 : (4 : ℚ) ≤ u := by
    have : (4 : ℚ) ≤ 26353589 / 2 ^ 22 := by norm_num
    linarith
  have hu8 : u < 8 := by
    have : TWO_PI < 8 := by rw [hT]; norm_num
    linarith
  have hupos : (0 : ℚ) < u := by linarith
  have hf : fmod u TWO_PI = u := by
    unfold fmod trunc
    have hq0 : 0 ≤ u / TWO_PI := div_nonneg (le_of_lt hupos) (le_of_lt hTpos)
    have hq1 : u / TWO_PI < 1 := (div_lt_one hTpos).2 h2
    rw [if_pos hq0, Int.floor_eq_zero_iff.2 ⟨hq0, hq1⟩]
    simp
  have hlog : Int.log 2 |u| = 2 := by
    rw [abs_of_pos hupos]
    apply le_antisymm
    · have h3 : Int.log 2 u < 3 :=
        (Int.lt_zpow_iff_log_lt (by norm_num) hupos).1 (by norm_num; exact hu8)
      omega
    · exact (Int.zpow_le_iff_le_log (by norm_num) hupos).1 (by norm_num; exact hu4)
  have hulp : binary32Ulp u = 1 / 2 ^ 21 := by
    unfold binary32Ulp
    rw [hlog]
    norm_num
  have hfl : ⌊u / (1 / 2 ^ 21)⌋ = 13176794 := by
    rw [Int.floor_eq_iff]
    rw [hT] at h2
    constructor
    · push_cast
      rw [div_div_eq_mul_div, div_one]
      linarith
    · push_cast
      rw [div_div_eq_mul_div, div_one]
      linarith
  unfold headingOfDraw toFloat
  rw [hf, hulp]
  unfold roundHalfEven
  rw [hfl]
  have hfrac : (1 : ℚ) / 2 < u / (1 / 2 ^ 21) - ((13176794 : ℤ) : ℚ) := by
    push_cast
    rw [div_div_eq_mul_div, div_one]
    linarith
  rw [if_neg (not_lt.2 (le_of_lt hfrac)), if_pos hfrac]
  push_cast
  norm_num

/-- C8 against the code: for the draw 0x401921FB54442D17, the largest `double` below
`TWO_PI`, line 47 computes the `float` 0x40C90FDB, which is above `TWO_PI` (and above
twice the real number pi): the condition of the `DPP_ASSERT` of line 48 is false, and
where the macro does not check it `randomHeading` returns that value, which `run` then
hands back as the heading of node 1. -/
theorem randomHeading_exceeds_two_pi :
    IsDouble lastBelowTwoPi ∧ 0 ≤ lastBelowTwoPi ∧ lastBelowTwoPi < TWO_PI ∧
    headingOfDraw lastBelowTwoPi = 13176795 / 2 ^ 21 ∧
    TWO_PI < headingOfDraw lastBelowTwoPi ∧
    2 * Real.pi < ((headingOfDraw lastBelowTwoPi : ℚ) : ℝ) ∧
    (randomHeading (edgeDrawWorld true) (St.enter scenarioOutputs)).1
      = .error .assertionFailed ∧
    (randomHeading (edgeDrawWorld false) (St.enter scenarioOutputs)).1
      = .ok (13176795 / 2 ^ 21) ∧
    (RandomizedDTSP.run (edgeDrawWorld true) scenarioG scenarioGA 0 1
      scenarioOutputs true).1 = .error .assertionFailed ∧
    (RandomizedDTSP.run (edgeDrawWorld false) scenarioG scenarioGA 0 1
      scenarioOutputs true).1 = .ok SUCCESS ∧
    (RandomizedDTSP.run (edgeDrawWorld false) scenarioG scenarioGA 0 1
      scenarioOutputs true).2.Headings.vals = [0, 13176795 / 2 ^ 21] := by
  have hval : headingOfDraw lastBelowTwoPi = 13176795 / 2 ^ 21 := by decide!
  refine ⟨⟨7074237752028439, 50, by norm_num, by norm_num, by norm_num [lastBelowTwoPi]⟩,
    by decide!, by decide!, hval, by decide!, ?_, by decide!, by decide!, by decide!,
    by decide!, by decide!⟩
  rw [hval]
  have hpi := Real.pi_lt_d20
  push_cast
  norm_num at hpi ⊢
  linarith

end dpp
